import Mathlib

/-!
Verification of the EE02 e-ink firmware (Seeed 13.3" Spectra 6 display).

This file shallowly embeds the parts of the firmware that the verified
properties are about:

* the schedule engine (`getLocalSecondsOfDay`, `isWithinActiveWindow`,
  `secondsUntilNextActiveWindow`, `secondsUntilWindowEnd`,
  `calculateSleepSeconds`) from the main firmware translation unit;
* the frame-buffer accessors (`loadImageData`, `getPixel`) and the
  transpose-and-transfer loop (`transferData`) of `Spectra6Display`;
* the busy-wait / initialization logic (`waitUntilIdle`, `begin`);
* the freshness-token state machine of one wake cycle
  (`checkImageChanged`, `fetchAndDisplayImage`, `runNormalMode`);
* the remote schedule-override validation of `syncRemoteConfigAndTime`.

Machine integers are modelled as `Int` / `Nat`; where the C code performs a
conversion that can change the value (the `static_cast<uint32_t>` of a signed
quantity) the wrap is made explicit (`toUInt32Wrap`).  `time_t` and the
`int64_t` intermediate of the local-time conversion are modelled as unbounded
`Int` (the firmware's values are far from the 64-bit boundary).
-/

/-- Firmware constant `MIN_SLEEP_SECONDS`: floor for every deep-sleep duration. -/
def MIN_SLEEP_SECONDS : Nat := 60

/-- Firmware constant `VALID_UNIX_TIME`: 2024-01-01 00:00:00 UTC. -/
def VALID_UNIX_TIME : Int := 1704067200

/-- The C cast `static_cast<uint32_t>` applied to a signed value: two's-complement wrap
into `[0, 2^32)`. -/
def toUInt32Wrap (x : Int) : Nat := (x % 4294967296).toNat

/-- Model of `isClockValid(now)`: the clock is trusted once it is at or past
2024-01-01 00:00:00 UTC. -/
def isClockValid (now : Int) : Bool := now ≥ VALID_UNIX_TIME

/-- Model of `getLocalSecondsOfDay(utcNow, timezoneOffsetMinutes)`.

The C code computes `localSeconds = utcNow + tz * 60` in `int64_t`, takes the
C `%` (truncated remainder, here `Int.tmod`) by 86400 — the result lies in
`(-86400, 86400)` so the `static_cast<int32_t>` is lossless — and adds 86400
when negative. -/
def getLocalSecondsOfDay (utcNow : Int) (timezoneOffsetMinutes : Int) : Int :=
  let localSeconds : Int := utcNow + timezoneOffsetMinutes * 60
  let secondsOfDay : Int := Int.tmod localSeconds 86400
  if secondsOfDay < 0 then secondsOfDay + 86400 else secondsOfDay

/-- Model of `isWithinActiveWindow(utcNow, startHour, endHour, timezoneOffsetMinutes)`. -/
def isWithinActiveWindow (utcNow : Int) (startHour endHour : Nat)
    (timezoneOffsetMinutes : Int) : Bool :=
  if startHour = endHour then
    true
  else
    let secondsOfDay := getLocalSecondsOfDay utcNow timezoneOffsetMinutes
    let startSeconds : Int := (startHour : Int) * 3600
    let endSeconds : Int := (endHour : Int) * 3600
    if startHour < endHour then
      decide (startSeconds ≤ secondsOfDay) && decide (secondsOfDay < endSeconds)
    else
      decide (startSeconds ≤ secondsOfDay) || decide (secondsOfDay < endSeconds)

/-- Model of `secondsUntilNextActiveWindow(utcNow, startHour, timezoneOffsetMinutes)`. -/
def secondsUntilNextActiveWindow (utcNow : Int) (startHour : Nat)
    (timezoneOffsetMinutes : Int) : Nat :=
  let secondsOfDay := getLocalSecondsOfDay utcNow timezoneOffsetMinutes
  let startSeconds : Int := (startHour : Int) * 3600
  if secondsOfDay < startSeconds then
    toUInt32Wrap (startSeconds - secondsOfDay)
  else
    toUInt32Wrap ((86400 - secondsOfDay) + startSeconds)

/-- Model of `secondsUntilWindowEnd(utcNow, startHour, endHour, timezoneOffsetMinutes)`;
returns `UINT32_MAX` when the window never closes (`start == end`). -/
def secondsUntilWindowEnd (utcNow : Int) (startHour endHour : Nat)
    (timezoneOffsetMinutes : Int) : Nat :=
  if startHour = endHour then
    4294967295
  else
    let secondsOfDay := getLocalSecondsOfDay utcNow timezoneOffsetMinutes
    let startSeconds : Int := (startHour : Int) * 3600
    let endSeconds : Int := (endHour : Int) * 3600
    if startHour < endHour then
      toUInt32Wrap (endSeconds - secondsOfDay)
    else if secondsOfDay ≥ startSeconds then
      toUInt32Wrap ((86400 - secondsOfDay) + endSeconds)
    else
      toUInt32Wrap (endSeconds - secondsOfDay)

/-- Model of `calculateSleepSeconds()`, as a pure function of the configuration values
it reads (`sleepMinutes` is the stored `uint16_t` refresh interval, so
`sleepMinutes * 60 < 2^32` and the `uint32_t` product cannot wrap). -/
def calculateSleepSeconds (sleepMinutes : Nat) (now : Int)
    (activeStart activeEnd : Nat) (timezoneOffsetMinutes : Int) : Nat :=
  let refreshSeconds := sleepMinutes * 60
  if ¬ (isClockValid now = true) then
    max refreshSeconds MIN_SLEEP_SECONDS
  else if ¬ (isWithinActiveWindow now activeStart activeEnd timezoneOffsetMinutes = true) then
    max (secondsUntilNextActiveWindow now activeStart timezoneOffsetMinutes) MIN_SLEEP_SECONDS
  else
    let untilWindowEnd := secondsUntilWindowEnd now activeStart activeEnd timezoneOffsetMinutes
    if refreshSeconds < untilWindowEnd then
      max refreshSeconds MIN_SLEEP_SECONDS
    else
      max (secondsUntilNextActiveWindow now activeStart timezoneOffsetMinutes) MIN_SLEEP_SECONDS

/-- The truncated remainder by a positive modulus is strictly above `-b`. -/
lemma neg_lt_tmod (a : Int) {b : Int} (hb : 0 < b) : -b < Int.tmod a b := by
  cases a with
  | ofNat m =>
    have h0 : (0 : Int) ≤ Int.tmod (Int.ofNat m) b :=
      Int.tmod_nonneg b (Int.ofNat_nonneg m)
    omega
  | negSucc m =>
    cases b with
    | ofNat n =>
      have hn : 0 < n := Int.ofNat_pos.mp hb
      have hmod : (m + 1) % n < n := Nat.mod_lt _ hn
      have heq : Int.tmod (Int.negSucc m) (Int.ofNat n) = -(((m + 1) % n : Nat) : Int) := rfl
      have hcoe : Int.ofNat n = (n : Int) := rfl
      rw [heq, hcoe]
      omega
    | negSucc n =>
      have := Int.negSucc_lt_zero n
      omega

/-- C10: for every UTC timestamp and every timezone offset in minutes
(negative offsets and offsets larger than the seconds already elapsed in the
day included), `getLocalSecondsOfDay` returns a value in `[0, 86400)`. -/
theorem C10_getLocalSecondsOfDay_in_range (utcNow timezoneOffsetMinutes : Int) :
    0 ≤ getLocalSecondsOfDay utcNow timezoneOffsetMinutes ∧
      getLocalSecondsOfDay utcNow timezoneOffsetMinutes < 86400 := by
  unfold getLocalSecondsOfDay
  have hub := Int.tmod_lt_of_pos (utcNow + timezoneOffsetMinutes * 60)
    (b := 86400) (by omega)
  have hlb := neg_lt_tmod (utcNow + timezoneOffsetMinutes * 60)
    (b := (86400 : Int)) (by omega)
  dsimp only
  split <;> omega

/-- C4: whatever the configuration and timestamp — clock invalid, outside the
window, or inside it — the computed deep-sleep duration is never below the
60-second minimum. -/
theorem C4_calculateSleepSeconds_floored (sleepMinutes : Nat) (now : Int)
    (activeStart activeEnd : Nat) (timezoneOffsetMinutes : Int) :
    MIN_SLEEP_SECONDS ≤
      calculateSleepSeconds sleepMinutes now activeStart activeEnd timezoneOffsetMinutes := by
  unfold calculateSleepSeconds
  dsimp only
  split
  · exact Nat.le_max_right _ _
  · split
    · exact Nat.le_max_right _ _
    · split
      · exact Nat.le_max_right _ _
      · exact Nat.le_max_right _ _

/-- C2: the active-window test — always true when `start == end`; for
`start < end` true exactly on `[start*3600, end*3600)` in local seconds of
day; for `start > end` (midnight wrap) true exactly when the local seconds of
day is at or past the start or before the end. -/
theorem C2_isWithinActiveWindow_semantics (utcNow timezoneOffsetMinutes : Int)
    (startHour endHour : Nat) (hs : startHour ≤ 23) (he : endHour ≤ 23) :
    (startHour = endHour →
        isWithinActiveWindow utcNow startHour endHour timezoneOffsetMinutes = true) ∧
    (startHour < endHour →
        (isWithinActiveWindow utcNow startHour endHour timezoneOffsetMinutes = true ↔
          (startHour : Int) * 3600 ≤ getLocalSecondsOfDay utcNow timezoneOffsetMinutes ∧
            getLocalSecondsOfDay utcNow timezoneOffsetMinutes < (endHour : Int) * 3600)) ∧
    (endHour < startHour →
        (isWithinActiveWindow utcNow startHour endHour timezoneOffsetMinutes = true ↔
          (startHour : Int) * 3600 ≤ getLocalSecondsOfDay utcNow timezoneOffsetMinutes ∨
            getLocalSecondsOfDay utcNow timezoneOffsetMinutes < (endHour : Int) * 3600)) := by
  refine ⟨fun h => ?_, fun h => ?_, fun h => ?_⟩
  · simp [isWithinActiveWindow, h]
  · have h1 : startHour ≠ endHour := by omega
    simp [isWithinActiveWindow, h1, h]
  · have h1 : startHour ≠ endHour := by omega
    have h2 : ¬ startHour < endHour := by omega
    simp [isWithinActiveWindow, h1, h2]

/-- Witness for C2 at `start = 8`, `end = 20`, `tz = 0`, local 08:00. -/
theorem C2_isWithinActiveWindow_semantics_witness :
    ((8 : Nat) = 20 → isWithinActiveWindow 28800 8 20 0 = true) ∧
    ((8 : Nat) < 20 →
        (isWithinActiveWindow 28800 8 20 0 = true ↔
          ((8 : Nat) : Int) * 3600 ≤ getLocalSecondsOfDay 28800 0 ∧
            getLocalSecondsOfDay 28800 0 < ((20 : Nat) : Int) * 3600)) ∧
    ((20 : Nat) < 8 →
        (isWithinActiveWindow 28800 8 20 0 = true ↔
          ((8 : Nat) : Int) * 3600 ≤ getLocalSecondsOfDay 28800 0 ∨
            getLocalSecondsOfDay 28800 0 < ((20 : Nat) : Int) * 3600)) :=
  C2_isWithinActiveWindow_semantics 28800 0 8 20 (by decide) (by decide)

/-- C3: with a valid clock and inside the active window, the sleep duration is
the refresh interval, unless that much sleep would reach or pass the window's
end (the boundary case `refresh = untilWindowEnd` included), in which case it
is the time until the next window start; both floored at the minimum. -/
theorem C3_calculateSleepSeconds_inside_window (sleepMinutes : Nat) (now : Int)
    (activeStart activeEnd : Nat) (timezoneOffsetMinutes : Int)
    (hclock : isClockValid now = true)
    (hwin : isWithinActiveWindow now activeStart activeEnd timezoneOffsetMinutes = true) :
    (sleepMinutes * 60 < secondsUntilWindowEnd now activeStart activeEnd timezoneOffsetMinutes →
        calculateSleepSeconds sleepMinutes now activeStart activeEnd timezoneOffsetMinutes =
          max (sleepMinutes * 60) MIN_SLEEP_SECONDS) ∧
    (secondsUntilWindowEnd now activeStart activeEnd timezoneOffsetMinutes ≤ sleepMinutes * 60 →
        calculateSleepSeconds sleepMinutes now activeStart activeEnd timezoneOffsetMinutes =
          max (secondsUntilNextActiveWindow now activeStart timezoneOffsetMinutes)
            MIN_SLEEP_SECONDS) := by
  refine ⟨fun h => ?_, fun h => ?_⟩
  · simp [calculateSleepSeconds, hclock, hwin, h]
  · have h2 : ¬ sleepMinutes * 60 <
        secondsUntilWindowEnd now activeStart activeEnd timezoneOffsetMinutes :=
      Nat.not_lt.mpr h
    simp [calculateSleepSeconds, hclock, hwin, h2]

/-- Witness for C3: refresh 30 min, clock at 2024-01-01 10:00 UTC, window
8-20, tz 0. -/
theorem C3_calculateSleepSeconds_inside_window_witness :
    (30 * 60 < secondsUntilWindowEnd 1704103200 8 20 0 →
        calculateSleepSeconds 30 1704103200 8 20 0 = max (30 * 60) MIN_SLEEP_SECONDS) ∧
    (secondsUntilWindowEnd 1704103200 8 20 0 ≤ 30 * 60 →
        calculateSleepSeconds 30 1704103200 8 20 0 =
          max (secondsUntilNextActiveWindow 1704103200 8 0) MIN_SLEEP_SECONDS) :=
  C3_calculateSleepSeconds_inside_window 30 1704103200 8 20 0 (by decide) (by decide)

/-- Panel width in pixels (`DISPLAY_WIDTH`). -/
def DISPLAY_WIDTH : Nat := 1600

/-- Panel height in pixels (`DISPLAY_HEIGHT`). -/
def DISPLAY_HEIGHT : Nat := 1200

/-- Frame-buffer size in bytes (`BUFFER_SIZE` = 1600 * 1200 / 2). -/
def BUFFER_SIZE : Nat := 960000

/-- Model of `Spectra6Display::getPixel(x, y)`: the frame buffer is a byte store
(two 4-bit pixels per byte); `(x & 1)` selects low nibble (`b & 0x0F`) for odd
`x` and high nibble (`(b >> 4) & 0x0F`) for even `x`.  The source performs no
bounds check on `x` or `y`. -/
def getPixel (buffer : Nat → Nat) (x y : Nat) : Nat :=
  let byteIdx := (y * DISPLAY_WIDTH + x) / 2
  let b := buffer byteIdx
  if x % 2 = 1 then b % 16 else (b >>> 4) % 16

/-- Model of `Spectra6Display::loadImageData(data, length)`: copies
`min(length, BUFFER_SIZE)` bytes over the front of the frame buffer. -/
def loadImageData (buffer : Nat → Nat) (data : Nat → Nat) (length : Nat) : Nat → Nat :=
  let copyLen := if length > BUFFER_SIZE then BUFFER_SIZE else length
  fun i => if i < copyLen then data i else buffer i

/-- One byte of `Spectra6Display::transferData`'s inner loop: pixels of buffer
rows `rowBase + 2*outByte` and `rowBase + 2*outByte + 1` at column `bufCol`,
packed as `(pixEven << 4) | pixOdd`. -/
def transferByte (buffer : Nat → Nat) (bufCol rowBase outByte : Nat) : Nat :=
  let pixEven := getPixel buffer bufCol (rowBase + 2 * outByte)
  let pixOdd := getPixel buffer bufCol (rowBase + 2 * outByte + 1)
  (pixEven <<< 4) ||| pixOdd

/-- The data bytes `transferData` sends to the MASTER controller after the
DTM command: `OUT_ROWS = 1600` output rows, `bufCol = 1599 - outRow`,
`OUT_BYTES = 300` bytes per row over buffer rows 0-599. -/
def masterTransferBytes (buffer : Nat → Nat) : List Nat :=
  (List.range 1600).flatMap fun outRow =>
    (List.range 300).map fun outByte => transferByte buffer (1599 - outRow) 0 outByte

/-- The data bytes `transferData` sends to the SLAVE controller: identical
column traversal over buffer rows 600-1199. -/
def slaveTransferBytes (buffer : Nat → Nat) : List Nat :=
  (List.range 1600).flatMap fun outRow =>
    (List.range 300).map fun outByte => transferByte buffer (1599 - outRow) 600 outByte

/-- The byte sequence claim C1 prescribes for the primary controller, written
from the spec: for each output row `r` from 0 to 1599 take buffer column
`c = 1599 - r`, and for each `j` from 0 to 299 emit the byte whose high
nibble is the pixel at `(c, 2j)` and whose low nibble the pixel at
`(c, 2j + 1)`. -/
def specPrimaryBytes (buffer : Nat → Nat) : List Nat :=
  (List.range 1600).flatMap fun r =>
    (List.range 300).map fun j =>
      16 * getPixel buffer (1599 - r) (2 * j) + getPixel buffer (1599 - r) (2 * j + 1)

/-- The byte sequence claim C1 prescribes for the secondary controller: the
same column traversal over buffer rows 600-1199. -/
def specSecondaryBytes (buffer : Nat → Nat) : List Nat :=
  (List.range 1600).flatMap fun r =>
    (List.range 300).map fun j =>
      16 * getPixel buffer (1599 - r) (600 + 2 * j) +
        getPixel buffer (1599 - r) (600 + 2 * j + 1)

/-- The accessor `getPixel` always yields a 4-bit value. -/
lemma getPixel_lt_16 (buffer : Nat → Nat) (x y : Nat) : getPixel buffer x y < 16 := by
  unfold getPixel
  dsimp only
  split
  · exact Nat.mod_lt _ (by decide)
  · exact Nat.mod_lt _ (by decide)

/-- Packing two nibbles with shift-or is the same as `16 * hi + lo`. -/
lemma nibble_pack (a b : Nat) (ha : a < 16) (hb : b < 16) :
    (a <<< 4) ||| b = 16 * a + b := by
  have h : ∀ x < 16, ∀ y < 16, (x <<< 4) ||| y = 16 * x + y := by decide
  exact h a ha b hb

/-- A packed nibble byte has the high nibble as its div-16 part. -/
lemma nibble_unpack (a b : Nat) (ha : a < 16) (hb : b < 16) :
    (16 * a + b) / 16 = a ∧ (16 * a + b) % 16 = b := by
  omega

/-- C1: the byte stream `transferData` emits to the primary controller is
exactly the reverse-column transpose described by the spec (high nibble =
even buffer row of the pair, low nibble = odd row, buffer rows 0-599), and
the secondary controller receives the identical traversal over buffer rows
600-1199. -/
theorem C1_transferData_matches_spec (buffer : Nat → Nat) :
    masterTransferBytes buffer = specPrimaryBytes buffer ∧
    slaveTransferBytes buffer = specSecondaryBytes buffer := by
  constructor
  · unfold masterTransferBytes specPrimaryBytes
    congr 1
    funext outRow
    congr 1
    funext outByte
    unfold transferByte
    dsimp only
    rw [nibble_pack _ _ (getPixel_lt_16 _ _ _) (getPixel_lt_16 _ _ _)]
    simp [Nat.zero_add]
  · unfold slaveTransferBytes specSecondaryBytes
    congr 1
    funext outRow
    congr 1
    funext outByte
    unfold transferByte
    dsimp only
    rw [nibble_pack _ _ (getPixel_lt_16 _ _ _) (getPixel_lt_16 _ _ _)]

/-- C6: loading a full-capacity byte array and reading back any in-range
coordinate reproduces the packed nibbles: even `x` reads the high nibble,
odd `x` the low nibble, of byte `(y * width + x) / 2` of the loaded data. -/
theorem C6_load_getPixel_roundtrip (buffer data : Nat → Nat)
    (hdata : ∀ i, data i < 256) (x y : Nat) (hx : x < 1600) (hy : y < 1200) :
    getPixel (loadImageData buffer data BUFFER_SIZE) x y =
      if x % 2 = 0 then data ((y * 1600 + x) / 2) / 16
      else data ((y * 1600 + x) / 2) % 16 := by
  have hidx : (y * DISPLAY_WIDTH + x) / 2 < BUFFER_SIZE := by
    unfold DISPLAY_WIDTH BUFFER_SIZE
    omega
  unfold getPixel loadImageData at *
  dsimp only at *
  have hcap : ¬ BUFFER_SIZE > BUFFER_SIZE := by omega
  rw [if_neg hcap] at *
  rw [if_pos hidx]
  have hshift : data ((y * DISPLAY_WIDTH + x) / 2) >>> 4 =
      data ((y * DISPLAY_WIDTH + x) / 2) / 16 := by
    rw [Nat.shiftRight_eq_div_pow]
  have hb := hdata ((y * DISPLAY_WIDTH + x) / 2)
  unfold DISPLAY_WIDTH at *
  rcases Nat.mod_two_eq_zero_or_one x with h2 | h2
  · rw [if_neg (by omega), if_pos h2, hshift]
    omega
  · rw [if_pos h2, if_neg (by omega)]

/-- Witness for C6: data byte `i` holds `i % 256`; pixel (2, 1) reads the
high nibble of byte 801. -/
theorem C6_load_getPixel_roundtrip_witness :
    getPixel (loadImageData (fun _ => 0) (fun i => i % 256) BUFFER_SIZE) 2 1 =
      if 2 % 2 = 0 then ((1 * 1600 + 2) / 2) % 256 / 16
      else ((1 * 1600 + 2) / 2) % 256 % 16 :=
  C6_load_getPixel_roundtrip (fun _ => 0) (fun i => i % 256)
    (fun i => Nat.mod_lt i (by decide)) 2 1 (by decide) (by decide)

/-- A concrete frame buffer whose byte `i` stores `i % 256`, used to exhibit
the unchecked read of `getPixel`. -/
def demoBuffer (i : Nat) : Nat := i % 256

/-- Counterexample to C9 as stated: the coordinate `(1600, 0)` has `x`
outside `[0, width)`, yet `getPixel` does not fail fast — it evaluates the
index formula anyway and returns the nibble stored for the unrelated in-range
pixel `(0, 1)` (both land on byte 800). -/
theorem C9_counterexample :
    getPixel demoBuffer 1600 0 = getPixel demoBuffer 0 1 ∧
      getPixel demoBuffer 1600 0 = 2 := by
  decide

/-- C9 amended: `getPixel` performs no bounds check; an out-of-range
coordinate is neither rejected nor clamped but silently aliased through the
flat index `(y * width + x) / 2` — for every buffer, reading the out-of-range
coordinate `(1600, 0)` yields exactly the in-range pixel `(0, 1)`. -/
theorem C9_getPixel_unchecked_aliases (buffer : Nat → Nat) :
    getPixel buffer 1600 0 = getPixel buffer 0 1 := by
  unfold getPixel DISPLAY_WIDTH
  norm_num

/-- Model of `Spectra6Display::waitUntilIdle(timeoutMs)`: polls the (inverted) busy
line every 10 ms; `line t` is the level read at poll `t` (`true` = ready).
`fuel` bounds the number of re-polls after the first read; the source's
2000 ms reset timeout corresponds to 200 polls. -/
def waitUntilIdle (line : Nat → Bool) : Nat → Nat → Bool
  | 0, t => line t
  | fuel + 1, t => if line t then true else waitUntilIdle line fuel (t + 1)

/-- Model of `Spectra6Display::hardwareReset()`: pulses the reset pin, then calls
`waitUntilIdle(2000)` — and discards its Boolean result (the source statement
is `waitUntilIdle(2000);` with the value unused). -/
def hardwareReset (line : Nat → Bool) : Bool :=
  waitUntilIdle line 200 0

/-- Model of `Spectra6Display::begin()` reduced to its value flow: allocation failure
returns `false`; otherwise `hardwareReset()` (whose wait result is discarded)
and `initializeDisplay()` (which has no failure path) run and `begin` returns
`true`. -/
def beginDisplay (allocOk : Bool) (line : Nat → Bool) : Bool :=
  if allocOk = false then
    false
  else
    let _ := hardwareReset line
    true

/-- Counterexample to C7 as stated: with a busy line that never reports
ready, the Reset-step wait times out (`hardwareReset`'s inner wait returns
`false`), yet display initialization still reports success — the timeout is
not surfaced to `begin`'s caller. -/
theorem C7_counterexample :
    hardwareReset (fun _ => false) = false ∧
      beginDisplay true (fun _ => false) = true := by
  constructor
  · decide
  · rfl

/-- C7 amended: a reset wait timeout is logged but not surfaced —
`hardwareReset` discards `waitUntilIdle`'s result, and `begin` reports
success iff the frame-buffer allocation succeeded, whatever the busy line
does. -/
theorem C7_begin_ignores_reset_timeout (allocOk : Bool) (line : Nat → Bool) :
    beginDisplay allocOk line = allocOk := by
  cases allocOk <;> rfl

/-- The freshness state retained in RTC memory across deep sleep:
`lastImageHash` (the committed token, `""` when unset) and the transient
`pendingImageHash` (zeroed on every boot). -/
structure FreshState where
  lastImageHash : String
  pendingImageHash : String
deriving DecidableEq, Repr

/-- Outcome of the `/hash` round trip in `checkImageChanged`: whether the
HTTP GET returned 200, and the body it returned. -/
structure HashCheckEnv where
  httpOk : Bool
  serverHash : String
deriving DecidableEq, Repr

/-- Outcome of the image round trip in `fetchAndDisplayImage`: buffer
allocation, HTTP status, the `X-Image-Hash` response header, content-length
validity, whether the streamed download delivered all bytes, and the busy
line observed by `refreshScreen`'s 60 s wait (`true` = ready). -/
structure FetchEnv where
  allocOk : Bool
  httpOk : Bool
  responseImageHash : String
  contentLengthOk : Bool
  downloadComplete : Bool
  refreshLine : Nat → Bool

/-- Model of `checkImageChanged()`: returns "changed?" and the updated freshness
state.  A failed request or a body that is not exactly 16 characters is
treated as "changed" without touching the state; an unchanged hash clears
`pendingImageHash`; a new hash is staged in `pendingImageHash` only —
`lastImageHash` is not written here. -/
def checkImageChanged (env : HashCheckEnv) (st : FreshState) : Bool × FreshState :=
  if env.httpOk = false then
    (true, st)
  else if env.serverHash.length ≠ 16 then
    (true, st)
  else if env.serverHash = st.lastImageHash then
    (false, { st with pendingImageHash := "" })
  else
    (true, { st with pendingImageHash := env.serverHash })

/-- Model of `fetchAndDisplayImage()`: returns (function result, whether the 60 s
refresh wait saw the ready line, updated freshness state).  Every failure
path before the refresh returns the state unchanged; once the download is
complete the display refresh sequence runs (`refreshScreen` only logs a
timeout — `waitUntilIdle(60000)`'s result does not gate the commit), and the
response-header hash (or, failing that, the staged pending hash) is
committed to `lastImageHash`. -/
def fetchAndDisplayImage (env : FetchEnv) (st : FreshState) :
    Bool × Bool × FreshState :=
  if env.allocOk = false then
    (false, false, st)
  else if env.httpOk = false then
    (false, false, st)
  else if env.contentLengthOk = false then
    (false, false, st)
  else if env.downloadComplete = false then
    (false, false, st)
  else
    let refreshReady := waitUntilIdle env.refreshLine 6000 0
    let last' :=
      if env.responseImageHash.length = 16 then env.responseImageHash
      else if st.pendingImageHash ≠ "" then st.pendingImageHash
      else st.lastImageHash
    (true, refreshReady, { lastImageHash := last', pendingImageHash := "" })

/-- One wake cycle's effect on the freshness state (`runNormalMode` after the
config sync): WiFi failure, quiet hours, an unchanged hash, and a display
initialization failure all leave `lastImageHash` as it was; only a cycle that
reaches `fetchAndDisplayImage`'s refresh step can change it. -/
def runNormalMode (wifiOk : Bool) (now : Int) (activeStart activeEnd : Nat)
    (timezoneOffsetMinutes : Int) (hashEnv : HashCheckEnv)
    (displayBeginOk : Bool) (fetchEnv : FetchEnv) (st : FreshState) : FreshState :=
  if wifiOk = false then
    st
  else if isClockValid now = true ∧
      isWithinActiveWindow now activeStart activeEnd timezoneOffsetMinutes = false then
    st
  else
    let checked := checkImageChanged hashEnv st
    if checked.1 = false then
      checked.2
    else if displayBeginOk = false then
      checked.2
    else
      (fetchAndDisplayImage fetchEnv checked.2).2.2

/-- The model `checkImageChanged` never writes the committed hash: on every path
`lastImageHash` is returned untouched (the new token is only staged in
`pendingImageHash`). -/
lemma checkImageChanged_lastImageHash (env : HashCheckEnv) (st : FreshState) :
    ((checkImageChanged env st).2).lastImageHash = st.lastImageHash := by
  unfold checkImageChanged
  split
  · rfl
  · split
    · rfl
    · split <;> rfl

/-- Every early-exit path of `fetchAndDisplayImage` (allocation, HTTP,
content-length, incomplete download) returns the freshness state unchanged. -/
lemma fetchAndDisplayImage_fail_state (env : FetchEnv) (st : FreshState)
    (h : env.allocOk = false ∨ env.httpOk = false ∨ env.contentLengthOk = false ∨
      env.downloadComplete = false) :
    (fetchAndDisplayImage env st).2.2 = st := by
  unfold fetchAndDisplayImage
  rcases h with h | h | h | h <;> simp [h]

/-- A busy line that never reports ready makes every bounded wait time out. -/
lemma waitUntilIdle_never (fuel t : Nat) :
    waitUntilIdle (fun _ => false) fuel t = false := by
  induction fuel generalizing t with
  | zero => rfl
  | succ f ih => simpa [waitUntilIdle] using ih (t + 1)

/-- Counterexample to C5 as stated: a full wake cycle in which the display
refresh wait times out (busy line never ready, so the refresh did not
complete successfully), yet `lastImageHash` is still overwritten with the new
token — the refresh-timeout path does not retain the previous committed
hash. -/
theorem C5_counterexample :
    (fetchAndDisplayImage
        (FetchEnv.mk true true "newnewnewnewnewn" true true (fun _ => false))
        (FreshState.mk "oldoldoldoldoldo" "")).2.1 = false ∧
      (runNormalMode true 1704103200 8 20 0 (HashCheckEnv.mk true "newnewnewnewnewn")
          true (FetchEnv.mk true true "newnewnewnewnewn" true true (fun _ => false))
          (FreshState.mk "oldoldoldoldoldo" "")).lastImageHash = "newnewnewnewnewn" := by
  constructor
  · simp [fetchAndDisplayImage, waitUntilIdle_never]
  · simp only [runNormalMode, checkImageChanged, fetchAndDisplayImage]
    decide

/-- C5 amended: across the wake cycle, `lastImageHash` is mutated only on the
path where the download completed fully and the display refresh sequence was
attempted; the committed value is the response-header token or the staged
pending token.  A refresh-wait timeout does NOT prevent the commit (it is
logged only).  All earlier exits — WiFi failure, quiet hours, an unchanged or
failed freshness check, display-init failure, fetch failure, invalid content
length, incomplete download, allocation failure — retain the previous
committed hash. -/
theorem C5_commit_only_after_refresh_attempt (wifiOk : Bool) (now : Int)
    (activeStart activeEnd : Nat) (timezoneOffsetMinutes : Int)
    (hashEnv : HashCheckEnv) (displayBeginOk : Bool) (fetchEnv : FetchEnv)
    (st st' : FreshState)
    (hrun : runNormalMode wifiOk now activeStart activeEnd timezoneOffsetMinutes
      hashEnv displayBeginOk fetchEnv st = st')
    (hchange : st'.lastImageHash ≠ st.lastImageHash) :
    wifiOk = true ∧ displayBeginOk = true ∧ fetchEnv.allocOk = true ∧
      fetchEnv.httpOk = true ∧ fetchEnv.contentLengthOk = true ∧
      fetchEnv.downloadComplete = true ∧
      (st'.lastImageHash = fetchEnv.responseImageHash ∨
        st'.lastImageHash = ((checkImageChanged hashEnv st).2).pendingImageHash) := by
  subst hrun
  unfold runNormalMode at hchange ⊢
  by_cases hw : wifiOk = false
  · rw [if_pos hw] at hchange
    exact absurd rfl hchange
  rw [if_neg hw] at hchange ⊢
  by_cases hq : isClockValid now = true ∧
      isWithinActiveWindow now activeStart activeEnd timezoneOffsetMinutes = false
  · rw [if_pos hq] at hchange
    exact absurd rfl hchange
  rw [if_neg hq] at hchange ⊢
  by_cases hc : (checkImageChanged hashEnv st).1 = false
  · rw [if_pos hc] at hchange
    rw [checkImageChanged_lastImageHash] at hchange
    exact absurd rfl hchange
  rw [if_neg hc] at hchange ⊢
  by_cases hd : displayBeginOk = false
  · rw [if_pos hd] at hchange
    rw [checkImageChanged_lastImageHash] at hchange
    exact absurd rfl hchange
  rw [if_neg hd] at hchange ⊢
  by_cases ha : fetchEnv.allocOk = false
  · rw [fetchAndDisplayImage_fail_state _ _ (Or.inl ha),
      checkImageChanged_lastImageHash] at hchange
    exact absurd rfl hchange
  by_cases hh : fetchEnv.httpOk = false
  · rw [fetchAndDisplayImage_fail_state _ _ (Or.inr (Or.inl hh)),
      checkImageChanged_lastImageHash] at hchange
    exact absurd rfl hchange
  by_cases hcl : fetchEnv.contentLengthOk = false
  · rw [fetchAndDisplayImage_fail_state _ _ (Or.inr (Or.inr (Or.inl hcl))),
      checkImageChanged_lastImageHash] at hchange
    exact absurd rfl hchange
  by_cases hdl : fetchEnv.downloadComplete = false
  · rw [fetchAndDisplayImage_fail_state _ _ (Or.inr (Or.inr (Or.inr hdl))),
      checkImageChanged_lastImageHash] at hchange
    exact absurd rfl hchange
  refine ⟨by simpa using hw, by simpa using hd, by simpa using ha, by simpa using hh,
    by simpa using hcl, by simpa using hdl, ?_⟩
  unfold fetchAndDisplayImage at hchange ⊢
  rw [if_neg ha, if_neg hh, if_neg hcl, if_neg hdl] at hchange ⊢
  by_cases hr : fetchEnv.responseImageHash.length = 16
  · rw [if_pos hr] at hchange ⊢
    exact Or.inl rfl
  rw [if_neg hr] at hchange ⊢
  by_cases hp : ((checkImageChanged hashEnv st).2).pendingImageHash ≠ ""
  · rw [if_pos hp] at hchange ⊢
    exact Or.inr rfl
  rw [if_neg hp] at hchange
  rw [checkImageChanged_lastImageHash] at hchange
  exact absurd rfl hchange

/-- Witness for C5 amended: a cycle whose fetch succeeds does commit the new
token, and all per-path conditions are met. -/
theorem C5_commit_only_after_refresh_attempt_witness :
    true = true ∧ true = true ∧
      (FetchEnv.mk true true "newnewnewnewnewn" true true (fun _ => true)).allocOk = true ∧
      (FetchEnv.mk true true "newnewnewnewnewn" true true (fun _ => true)).httpOk = true ∧
      (FetchEnv.mk true true "newnewnewnewnewn" true true
          (fun _ => true)).contentLengthOk = true ∧
      (FetchEnv.mk true true "newnewnewnewnewn" true true
          (fun _ => true)).downloadComplete = true ∧
      ((FreshState.mk "newnewnewnewnewn" "").lastImageHash =
          (FetchEnv.mk true true "newnewnewnewnewn" true true
            (fun _ => true)).responseImageHash ∨
        (FreshState.mk "newnewnewnewnewn" "").lastImageHash =
          ((checkImageChanged (HashCheckEnv.mk true "newnewnewnewnewn")
              (FreshState.mk "oldoldoldoldoldo" "")).2).pendingImageHash) :=
  C5_commit_only_after_refresh_attempt true 1704103200 8 20 0
    (HashCheckEnv.mk true "newnewnewnewnewn") true
    (FetchEnv.mk true true "newnewnewnewnewn" true true (fun _ => true))
    (FreshState.mk "oldoldoldoldoldo" "") (FreshState.mk "newnewnewnewnewn" "")
    (by simp only [runNormalMode, checkImageChanged, fetchAndDisplayImage]; decide)
    (by decide)

/-- The schedule-related fields of the persisted device configuration
(`refreshMinutes` is the stored `uint16_t`, hours are `uint8_t`, the
timezone offset an `int16_t`). -/
structure SchedConfig where
  refreshMinutes : Nat
  activeStartHour : Nat
  activeEndHour : Nat
  timezoneOffsetMinutes : Int
deriving DecidableEq, Repr

/-- The sparse override payload of the `/device_config` response: a field is
`none` when the JSON key is absent, `some v` with the `as<int>()` value when
present. -/
structure OverridePayload where
  refresh_interval_minutes : Option Int
  active_start_hour : Option Int
  active_end_hour : Option Int
  timezone_offset_minutes : Option Int
deriving DecidableEq, Repr

/-- Modelled from the spec: the seven-field `ConfigManager::setConfig`
overload called by `syncRemoteConfigAndTime` is not part of the sources at
hand (only its caller is); per §4.5 every mutating call applies the given
fields and persists them immediately, so it is modelled as the identity on
the already-validated schedule fields. -/
def setConfigPersist (c : SchedConfig) : SchedConfig := c

/-- One `containsKey`/bounds-check/assign block of the override section of
`syncRemoteConfigAndTime`, for a `Nat`-valued field: returns the (possibly
updated) value and whether it changed. -/
def overrideField (inBounds : Int → Prop) [DecidablePred inBounds]
    (o : Option Int) (cur : Nat) : Nat × Bool :=
  match o with
  | some v =>
    if inBounds v ∧ v ≠ (cur : Int) then (v.toNat, true) else (cur, false)
  | none => (cur, false)

/-- One `containsKey`/bounds-check/assign block of the override section, for
the `int16_t` timezone field. -/
def overrideFieldInt (inBounds : Int → Prop) [DecidablePred inBounds]
    (o : Option Int) (cur : Int) : Int × Bool :=
  match o with
  | some v =>
    if inBounds v ∧ v ≠ cur then (v, true) else (cur, false)
  | none => (cur, false)

/-- The schedule-override section of `syncRemoteConfigAndTime` (after a
successful fetch, parse and clock sync): each present field is bounds-checked
on its own (`refresh` in `(0, 1440]`, hours in `[0, 23]`, timezone offset in
`[-720, 840]`) and additionally compared against the current value to decide
whether anything changed; `setConfig` persists exactly when some field
changed.  Returns the resulting configuration and the `scheduleChanged`
flag. -/
def applyScheduleOverrides (p : OverridePayload) (c : SchedConfig) :
    SchedConfig × Bool :=
  let refresh :=
    overrideField (fun v => 0 < v ∧ v ≤ 1440) p.refresh_interval_minutes c.refreshMinutes
  let startH :=
    overrideField (fun v => 0 ≤ v ∧ v ≤ 23) p.active_start_hour c.activeStartHour
  let endH :=
    overrideField (fun v => 0 ≤ v ∧ v ≤ 23) p.active_end_hour c.activeEndHour
  let tz :=
    overrideFieldInt (fun v => -720 ≤ v ∧ v ≤ 840) p.timezone_offset_minutes
      c.timezoneOffsetMinutes
  let newConfig : SchedConfig :=
    SchedConfig.mk refresh.1 startH.1 endH.1 tz.1
  let scheduleChanged := refresh.2 || startH.2 || endH.2 || tz.2
  if scheduleChanged then (setConfigPersist newConfig, true) else (c, false)

/-- The per-field override semantics claim C8 prescribes, written from the
spec: a present in-bounds field is applied, a present out-of-range field is
ignored, an absent field is untouched — each field independently of the
others. -/
def specApplyOverride (p : OverridePayload) (c : SchedConfig) : SchedConfig :=
  SchedConfig.mk
    (match p.refresh_interval_minutes with
     | some v => if 0 < v ∧ v ≤ 1440 then v.toNat else c.refreshMinutes
     | none => c.refreshMinutes)
    (match p.active_start_hour with
     | some v => if 0 ≤ v ∧ v ≤ 23 then v.toNat else c.activeStartHour
     | none => c.activeStartHour)
    (match p.active_end_hour with
     | some v => if 0 ≤ v ∧ v ≤ 23 then v.toNat else c.activeEndHour
     | none => c.activeEndHour)
    (match p.timezone_offset_minutes with
     | some v => if -720 ≤ v ∧ v ≤ 840 then v else c.timezoneOffsetMinutes
     | none => c.timezoneOffsetMinutes)

/-- The function `applyScheduleOverrides` either reports a change or returns the
configuration untouched with a false flag. -/
lemma applyScheduleOverrides_cases (p : OverridePayload) (c : SchedConfig) :
    (applyScheduleOverrides p c).2 = true ∨ applyScheduleOverrides p c = (c, false) := by
  unfold applyScheduleOverrides
  dsimp only
  split
  · exact Or.inl rfl
  · exact Or.inr rfl

/-- The value a `Nat`-field block produces ignores the change-detection part
of its condition: it is the claim's per-field semantics, provided the bounds
imply nonnegativity. -/
lemma overrideField_fst (inBounds : Int → Prop) [DecidablePred inBounds]
    (hnn : ∀ v, inBounds v → 0 ≤ v) (o : Option Int) (cur : Nat) :
    (overrideField inBounds o cur).1 =
      (match o with
       | some v => if inBounds v then v.toNat else cur
       | none => cur) := by
  cases o with
  | none => rfl
  | some v =>
    dsimp only [overrideField]
    by_cases h1 : inBounds v
    · by_cases h2 : v = (cur : Int)
      · have := hnn v h1
        rw [if_neg (by simp [h2]), if_pos h1]
        omega
      · rw [if_pos ⟨h1, h2⟩, if_pos h1]
    · rw [if_neg (by simp [h1]), if_neg h1]

/-- Same for the `Int`-valued timezone block. -/
lemma overrideFieldInt_fst (inBounds : Int → Prop) [DecidablePred inBounds]
    (o : Option Int) (cur : Int) :
    (overrideFieldInt inBounds o cur).1 =
      (match o with
       | some v => if inBounds v then v else cur
       | none => cur) := by
  cases o with
  | none => rfl
  | some v =>
    dsimp only [overrideFieldInt]
    by_cases h1 : inBounds v
    · by_cases h2 : v = cur
      · rw [if_neg (by simp [h2]), if_pos h1, h2]
      · rw [if_pos ⟨h1, h2⟩, if_pos h1]
    · rw [if_neg (by simp [h1]), if_neg h1]

/-- A `Nat`-field block that reports no change returns the current value. -/
lemma overrideField_unchanged (inBounds : Int → Prop) [DecidablePred inBounds]
    (o : Option Int) (cur : Nat) (h : (overrideField inBounds o cur).2 = false) :
    (overrideField inBounds o cur).1 = cur := by
  cases o with
  | none => rfl
  | some v =>
    dsimp only [overrideField] at h ⊢
    split_ifs at h ⊢
    rfl

/-- Same for the `Int`-valued timezone block. -/
lemma overrideFieldInt_unchanged (inBounds : Int → Prop) [DecidablePred inBounds]
    (o : Option Int) (cur : Int) (h : (overrideFieldInt inBounds o cur).2 = false) :
    (overrideFieldInt inBounds o cur).1 = cur := by
  cases o with
  | none => rfl
  | some v =>
    dsimp only [overrideFieldInt] at h ⊢
    split_ifs at h ⊢
    rfl

/-- C8: the remote override applies and persists each present field
independently — an out-of-range value leaves exactly that field unchanged
and does not fail the payload, a co-present valid field is still applied;
and any payload that effectively changes the configuration sets the
`scheduleChanged` flag, i.e. is persisted through `setConfig`. -/
theorem C8_applyScheduleOverrides_fieldwise (p : OverridePayload) (c : SchedConfig) :
    (applyScheduleOverrides p c).1 = specApplyOverride p c ∧
      ((applyScheduleOverrides p c).1 ≠ c → (applyScheduleOverrides p c).2 = true) := by
  constructor
  · obtain ⟨cr, cs, ce, ct⟩ := c
    unfold applyScheduleOverrides setConfigPersist
    dsimp only
    split
    · unfold specApplyOverride
      dsimp only
      rw [← overrideField_fst _ (fun v h => le_of_lt h.1) p.refresh_interval_minutes cr,
        ← overrideField_fst _ (fun v h => h.1) p.active_start_hour cs,
        ← overrideField_fst _ (fun v h => h.1) p.active_end_hour ce,
        ← overrideFieldInt_fst _ p.timezone_offset_minutes ct]
    · rename_i hor
      rw [Bool.or_eq_true, Bool.or_eq_true, Bool.or_eq_true] at hor
      push_neg at hor
      obtain ⟨⟨⟨h1, h2⟩, h3⟩, h4⟩ := hor
      have e1 := overrideField_unchanged _ p.refresh_interval_minutes cr
        (Bool.eq_false_iff.mpr h1)
      have e2 := overrideField_unchanged _ p.active_start_hour cs
        (Bool.eq_false_iff.mpr h2)
      have e3 := overrideField_unchanged _ p.active_end_hour ce
        (Bool.eq_false_iff.mpr h3)
      have e4 := overrideFieldInt_unchanged _ p.timezone_offset_minutes ct
        (Bool.eq_false_iff.mpr h4)
      unfold specApplyOverride
      dsimp only
      rw [← overrideField_fst _ (fun v h => le_of_lt h.1) p.refresh_interval_minutes cr,
        ← overrideField_fst _ (fun v h => h.1) p.active_start_hour cs,
        ← overrideField_fst _ (fun v h => h.1) p.active_end_hour ce,
        ← overrideFieldInt_fst _ p.timezone_offset_minutes ct]
      rw [e1, e2, e3, e4]
  · intro hne
    rcases applyScheduleOverrides_cases p c with h | h
    · exact h
    · rw [h] at hne
      exact absurd rfl hne
